import Mathlib

/-!
Shallow embedding of the pump-bot trading agent, covering the trade-safety
gate (src/trading/trading-protection.ts), the buy and sell execution paths
and the discovery listener (the main module), and the retry helper
(utility module bundled with src/market/market.ts).

Numbers are modelled as rationals, account identities as strings, and the
fallible external calls (RPC, SDK) as explicit outcome parameters, so every
definition is executable.
-/

namespace PumpBot

/-! ## TradingProtection (src/trading/trading-protection.ts) -/

/-- The mutable threshold fields of the TradingProtection singleton,
with the initializers from the class declaration. -/
structure TPState where
  maxSlippage : ℚ
  maxTradeSize : ℚ
  minLiquidity : ℚ
  mockLiquidity : ℚ
  mockPriceImpact : ℚ
deriving Repr, DecidableEq

/-- Field initializers: slippage 1 percent, max trade size 1000 SOL,
min liquidity 100 SOL, mock liquidity 1000 SOL, mock price impact 0.5. -/
def initialTPState : TPState :=
  { maxSlippage := 1, maxTradeSize := 1000, minLiquidity := 100
    mockLiquidity := 1000, mockPriceImpact := 1/2 }

/-- Fault-injection flags for the three fallible steps inside
checkTradeSafety: the amount conversion, the liquidity lookup and the
price-impact calculation. A true flag means that step raises. -/
structure Faults where
  conv : Bool
  liq : Bool
  impact : Bool
deriving Repr, DecidableEq

def noFaults : Faults := ⟨false, false, false⟩

/-- getAmountInSol: divides the raw amount by 10 to the 9; its catch block
rethrows, so a fault propagates to the caller. -/
def getAmountInSol (raw : ℤ) (fault : Bool) : Except Unit ℚ :=
  if fault then .error () else .ok ((raw : ℚ) / 10 ^ 9)

/-- getTokenLiquidity: returns the mock liquidity; its own catch block
returns 0 instead of throwing. -/
def getTokenLiquidity (st : TPState) (fault : Bool) : ℚ :=
  if fault then 0 else st.mockLiquidity

/-- calculatePriceImpact: returns the mock price impact; its own catch
block returns 100 instead of throwing. -/
def calculatePriceImpact (st : TPState) (fault : Bool) : ℚ :=
  if fault then 100 else st.mockPriceImpact

/-- The result object of checkTradeSafety. -/
structure SafetyResult where
  safe : Bool
  reason : Option String
deriving Repr, DecidableEq

/-- Reason string of the trade-size check. -/
def sizeReason (amountInSol maxTradeSize : ℚ) : String :=
  "Trade size " ++ toString amountInSol ++ " SOL exceeds maximum allowed " ++
    toString maxTradeSize ++ " SOL"

/-- Reason string of the liquidity check. -/
def liquidityReason (liquidity minLiquidity : ℚ) : String :=
  "Insufficient liquidity: " ++ toString liquidity ++ " SOL < " ++
    toString minLiquidity ++ " SOL"

/-- Reason string of the price-impact check. -/
def impactReason (priceImpact maxSlippage : ℚ) : String :=
  "Price impact " ++ toString priceImpact ++ "% exceeds maximum allowed " ++
    toString maxSlippage ++ "%"

/-- checkTradeSafety: size check, then liquidity check, then price-impact
check, each short-circuiting; the outer catch converts an escaping
exception into a rejection with a generic reason. Faults inside the
liquidity and impact helpers are handled by those helpers themselves. -/
def checkTradeSafety (st : TPState) (raw : ℤ) (f : Faults) : SafetyResult :=
  match getAmountInSol raw f.conv with
  | .error _ => ⟨false, some "Failed to check trade safety"⟩
  | .ok amountInSol =>
    if st.maxTradeSize < amountInSol then
      ⟨false, some (sizeReason amountInSol st.maxTradeSize)⟩
    else
      let liquidity := getTokenLiquidity st f.liq
      if liquidity < st.minLiquidity then
        ⟨false, some (liquidityReason liquidity st.minLiquidity)⟩
      else
        let priceImpact := calculatePriceImpact st f.impact
        if st.maxSlippage < priceImpact then
          ⟨false, some (impactReason priceImpact st.maxSlippage)⟩
        else ⟨true, none⟩

/-- setMaxSlippage: plain assignment, no validation. -/
def setMaxSlippage (st : TPState) (slippage : ℚ) : TPState :=
  { st with maxSlippage := slippage }

/-- setMaxTradeSize: plain assignment, no validation. -/
def setMaxTradeSize (st : TPState) (size : ℚ) : TPState :=
  { st with maxTradeSize := size }

/-- setMinLiquidity: plain assignment, no validation. -/
def setMinLiquidity (st : TPState) (liquidity : ℚ) : TPState :=
  { st with minLiquidity := liquidity }

/-- The invariant claimed for the threshold configuration: the three
trading thresholds are strictly positive. -/
def thresholdsPositive (st : TPState) : Prop :=
  0 < st.maxSlippage ∧ 0 < st.maxTradeSize ∧ 0 < st.minLiquidity

instance (st : TPState) : Decidable (thresholdsPositive st) := by
  unfold thresholdsPositive; infer_instance

/-- One string occurs inside another. -/
def containsStr (s mid : String) : Prop :=
  ∃ pre post, s = pre ++ mid ++ post

/-! ## Position data (main module) -/

/-- Pool-execution keys, an opaque record built by the DEX SDK; only the
fields the core logic inspects are kept. -/
structure LiquidityPoolKeys where
  id : String
  version : Nat
deriving Repr, DecidableEq

/-- Minimal market metadata cached per mint. -/
structure MinimalMarketLayoutV3 where
  bids : String
  asks : String
  eventQueue : String
deriving Repr, DecidableEq

/-- MinimalTokenAccountData: the tracked position record, keyed by mint in
the existingTokenAccounts map. buyValue, poolKeys and market are optional
fields. -/
structure MinimalTokenAccountData where
  mint : String
  address : String
  buyValue : Option ℚ
  poolKeys : Option LiquidityPoolKeys
  market : Option MinimalMarketLayoutV3
deriving Repr, DecidableEq

/-- saveTokenAccount: builds a fresh record holding only address, mint and
market metadata; buyValue and poolKeys are absent. The associated token
address derivation is delegated to the SDK and passed in. -/
def saveTokenAccount (mint address : String) (accountData : MinimalMarketLayoutV3) :
    MinimalTokenAccountData :=
  { mint := mint, address := address, buyValue := none, poolKeys := none
    market := some accountData }

/-- The only mutation the buy path performs on a tracked position record:
it assigns poolKeys from createPoolKeys. No field named buyValue is ever
assigned anywhere in the repository. -/
def buySetPoolKeys (ta : MinimalTokenAccountData) (pk : LiquidityPoolKeys) :
    MinimalTokenAccountData :=
  { ta with poolKeys := some pk }

/-! ## retry helper (utility module bundled with src/market/market.ts)

The source tries the operation once; on an exception, if the retries
parameter is not positive it rethrows, otherwise it sleeps for the fixed
interval and recurses with retries decremented. The integer retries
parameter is encoded through its nonnegative part: retryGo n performs the
attempt that still has n permitted recursions left, so retryGo 0 is the
final attempt whose failure propagates. Along with the outcome we count
how many attempts were made. -/

/-- One run of the retry combinator with n recursions left; op i is the
outcome of attempt number i. -/
def retryGo (op : Nat → Except Unit String) : Nat → Nat → Except Unit String × Nat
  | 0, i => (op i, 1)
  | n + 1, i =>
    match op i with
    | .ok a => (.ok a, 1)
    | .error _ =>
      let r := retryGo op n (i + 1)
      (r.1, r.2 + 1)

/-- retry with an integer retries parameter, as in the source; a
nonpositive parameter still makes the one initial attempt. -/
def retryRun (op : Nat → Except Unit String) (retries : ℤ) : Except Unit String × Nat :=
  retryGo op retries.toNat 0

/-! ## buy (main module)

The buy path: safety gate, then transaction build, then submission wrapped
in retry with a retries parameter of 3 and a 1000 ms interval, then a
single confirmation; a confirmation error becomes a thrown exception that
the outer catch logs and rethrows. The external world is an oracle: the
outcome of each submission attempt, and whether confirmation of a given
signature reports an error. -/

/-- External outcomes the buy path consumes. -/
structure BuyEnv where
  safetyOk : Bool
  send : Nat → Except Unit String
  confirmErr : String → Bool

/-- buy: returns ok or the rethrown exception, paired with the number of
submission attempts made. A rejected safety check returns without any
submission. -/
def buy (env : BuyEnv) : Except Unit Unit × Nat :=
  if env.safetyOk = false then (.ok (), 0)
  else
    match retryRun env.send 3 with
    | (.error _, k) => (.error (), k)
    | (.ok sig, k) =>
      if env.confirmErr sig then (.error (), k) else (.ok (), k)

/-! ## sell (main module)

The sell path is a do-while loop. Each iteration: look the mint up in the
token-account map; a missing record returns true; missing pool keys hits a
continue statement that does not touch the retry counter; a zero amount
returns true; an undefined buyValue returns true; a net change strictly
inside the stop-loss and take-profit band returns false; otherwise the
transaction phase runs, where an exception increments the retry counter,
a confirmation error hits continue, and a confirmed transaction returns
true. The loop condition is retries below maxSellRetries. The transaction
phase of iteration i is an oracle value. -/

/-- Outcome of the transaction phase of one sell iteration. -/
inductive TxOutcome where
  | threw
  | confirmErred
  | confirmed
deriving Repr, DecidableEq

/-- Configuration the sell path reads: stop loss, take profit and the
maximum number of sell retries (an integer parsed from the environment). -/
structure SellConfig where
  stopLoss : ℚ
  takeProfit : ℚ
  maxSellRetries : ℤ
deriving Repr, DecidableEq

/-- Arguments of one call to sell: the mint, the raw token amount and the
current market value. -/
structure SellCall where
  mint : String
  amount : ℤ
  value : ℚ
deriving Repr, DecidableEq

/-- What one iteration of the sell loop does before the loop condition is
rechecked: return a value, fall to the condition without touching the
retry counter (the continue paths), or have the catch block increment it. -/
inductive IterResult where
  | ret (b : Bool)
  | passThrough
  | caught
deriving Repr, DecidableEq

/-- One iteration of the sell loop body; the second component records
whether the transaction phase was entered (a swap was built and sent). -/
def sellIter (cfg : SellConfig) (accounts : String → Option MinimalTokenAccountData)
    (call : SellCall) (outcome : TxOutcome) : IterResult × Bool :=
  match accounts call.mint with
  | none => (.ret true, false)
  | some ta =>
    match ta.poolKeys with
    | none => (.passThrough, false)
    | some _ =>
      if call.amount = 0 then (.ret true, false)
      else
        match ta.buyValue with
        | none => (.ret true, false)
        | some bv =>
          let netChange := (call.value - bv) / bv
          if cfg.stopLoss < netChange ∧ netChange < cfg.takeProfit then (.ret false, false)
          else
            match outcome with
            | .threw => (.caught, true)
            | .confirmErred => (.passThrough, true)
            | .confirmed => (.ret true, true)

/-- The sell loop, driven by fuel; env i is the transaction-phase outcome
of iteration i and retries is the current retry counter. Returns none when
the fuel runs out before the loop returns, together with the number of
iterations that entered the transaction phase. -/
def sellLoop (cfg : SellConfig) (accounts : String → Option MinimalTokenAccountData)
    (call : SellCall) (env : Nat → TxOutcome) :
    Nat → Nat → Nat → Option Bool × Nat
  | 0, _, _ => (none, 0)
  | fuel + 1, retries, i =>
    match sellIter cfg accounts call (env i) with
    | (.ret b, sub) => (some b, if sub then 1 else 0)
    | (.passThrough, sub) =>
      if (retries : ℤ) < cfg.maxSellRetries then
        let r := sellLoop cfg accounts call env fuel retries (i + 1)
        (r.1, (if sub then 1 else 0) + r.2)
      else (some true, if sub then 1 else 0)
    | (.caught, sub) =>
      if ((retries + 1 : Nat) : ℤ) < cfg.maxSellRetries then
        let r := sellLoop cfg accounts call env fuel (retries + 1) (i + 1)
        (r.1, (if sub then 1 else 0) + r.2)
      else (some true, if sub then 1 else 0)

/-- sell: the loop started with a zero retry counter at iteration 0. -/
def sell (cfg : SellConfig) (accounts : String → Option MinimalTokenAccountData)
    (call : SellCall) (env : Nat → TxOutcome) (fuel : Nat) : Option Bool × Nat :=
  sellLoop cfg accounts call env fuel 0 0

/-! ## Discovery listener (main module)

Both subscription callbacks follow one shape: compute the key, and when a
guard holds and the key is not in the dedup set, add it and dispatch it.
The pool callback guards on the pool open time being strictly after the
process start; the market callback has no extra guard. -/

/-- One account-change notification: the account identity and the decoded
pool open time (ignored by the market stream). -/
structure Notif where
  key : String
  poolOpenTime : ℤ
deriving Repr, DecidableEq

/-- One callback invocation: add and dispatch exactly when the guard holds
and the key is unseen. -/
def dedupStep (g : Notif → Bool) (seen : List String) (e : Notif) :
    List String × Option String :=
  if g e ∧ e.key ∉ seen then (e.key :: seen, some e.key) else (seen, none)

/-- Folds a stream of notifications through the callback, returning the
final dedup set and the list of dispatched identities in order. -/
def runFeed (g : Notif → Bool) (seen : List String) :
    List Notif → List String × List String
  | [] => (seen, [])
  | e :: es =>
    let step := dedupStep g seen e
    let rest := runFeed g step.1 es
    (rest.1, match step.2 with | some k => k :: rest.2 | none => rest.2)

/-- The pool-stream guard from the source: dispatch only pools whose open
time is strictly after the listener start timestamp. -/
def poolGuard (runTimestamp : ℤ) : Notif → Bool :=
  fun e => decide (runTimestamp < e.poolOpenTime)

/-- The Raydium pool subscription callback over a whole stream. -/
def processPoolStream (runTimestamp : ℤ) (seen : List String) (es : List Notif) :
    List String × List String :=
  runFeed (poolGuard runTimestamp) seen es

/-- The OpenBook market subscription callback over a whole stream. -/
def processMarketStream (seen : List String) (es : List Notif) :
    List String × List String :=
  runFeed (fun _ => true) seen es

/-! ## Theorems -/

/-- The size reason string literally carries the words claimed for it. -/
lemma sizeReason_contains (a m : ℚ) :
    containsStr (sizeReason a m) "exceeds maximum allowed" := by
  refine ⟨"Trade size " ++ toString a ++ " SOL ",
    " " ++ toString m ++ " SOL", ?_⟩
  simp only [sizeReason]
  rw [show (" SOL exceeds maximum allowed " : String) =
    " SOL " ++ ("exceeds maximum allowed" ++ " ") from rfl]
  simp only [String.append_assoc]

/-- C1: checkTradeSafety runs the trade-size check before the liquidity
and price-impact checks and short-circuits at the first failure: whenever
the amount conversion does not fault and the trade size exceeds the
maximum, the result is the size rejection carrying the size reason, which
contains "exceeds maximum allowed", for every liquidity and price-impact
value, so a simultaneous liquidity violation can never surface the
liquidity reason. -/
theorem checkTradeSafety_size_check_first (st : TPState) (raw : ℤ) (f : Faults)
    (hconv : f.conv = false)
    (hsize : st.maxTradeSize < (raw : ℚ) / 10 ^ 9) :
    checkTradeSafety st raw f =
      ⟨false, some (sizeReason ((raw : ℚ) / 10 ^ 9) st.maxTradeSize)⟩ ∧
    containsStr (sizeReason ((raw : ℚ) / 10 ^ 9) st.maxTradeSize)
      "exceeds maximum allowed" := by
  refine ⟨?_, sizeReason_contains _ _⟩
  simp [checkTradeSafety, getAmountInSol, hconv, hsize]

/-- C1 witness: with max trade size 1000 SOL and min liquidity 5000 SOL,
a raw amount of 2 * 10 to the 12 (2000 SOL) violates both the size and the
liquidity bound; the result is the size rejection. -/
theorem checkTradeSafety_size_check_first_witness :
    checkTradeSafety ⟨1, 1000, 5000, 1000, 1/2⟩ (2 * 10 ^ 12) noFaults =
      ⟨false, some (sizeReason (((2 * 10 ^ 12 : ℤ) : ℚ) / 10 ^ 9) 1000)⟩ ∧
    containsStr (sizeReason (((2 * 10 ^ 12 : ℤ) : ℚ) / 10 ^ 9) 1000)
      "exceeds maximum allowed" :=
  checkTradeSafety_size_check_first ⟨1, 1000, 5000, 1000, 1/2⟩ (2 * 10 ^ 12)
    noFaults rfl (by show (1000 : ℚ) < ((2 * 10 ^ 12 : ℤ) : ℚ) / 10 ^ 9; norm_num)

/-- C5: the reason field is populated exactly when safe is false; on the
fault-free path, all three checks passing yields safe true with no reason,
and otherwise the reason is exactly the message of the first violated
check in the size, liquidity, impact order. -/
theorem checkTradeSafety_reason_iff_rejected (st : TPState) (raw : ℤ) (f : Faults) :
    ((checkTradeSafety st raw f).reason.isSome ↔
      (checkTradeSafety st raw f).safe = false) ∧
    (f = noFaults →
      (¬ st.maxTradeSize < (raw : ℚ) / 10 ^ 9 →
        ¬ st.mockLiquidity < st.minLiquidity →
        ¬ st.maxSlippage < st.mockPriceImpact →
        checkTradeSafety st raw f = ⟨true, none⟩) ∧
      (st.maxTradeSize < (raw : ℚ) / 10 ^ 9 →
        (checkTradeSafety st raw f).reason =
          some (sizeReason ((raw : ℚ) / 10 ^ 9) st.maxTradeSize)) ∧
      (¬ st.maxTradeSize < (raw : ℚ) / 10 ^ 9 →
        st.mockLiquidity < st.minLiquidity →
        (checkTradeSafety st raw f).reason =
          some (liquidityReason st.mockLiquidity st.minLiquidity)) ∧
      (¬ st.maxTradeSize < (raw : ℚ) / 10 ^ 9 →
        ¬ st.mockLiquidity < st.minLiquidity →
        st.maxSlippage < st.mockPriceImpact →
        (checkTradeSafety st raw f).reason =
          some (impactReason st.mockPriceImpact st.maxSlippage))) := by
  constructor
  · rcases f with ⟨conv, liq, impact⟩
    cases conv with
    | true => simp [checkTradeSafety, getAmountInSol]
    | false =>
      by_cases h1 : st.maxTradeSize < (raw : ℚ) / 10 ^ 9 <;>
        by_cases h2 : getTokenLiquidity st liq < st.minLiquidity <;>
        by_cases h3 : st.maxSlippage < calculatePriceImpact st impact <;>
        simp [checkTradeSafety, getAmountInSol, h1, h2, h3]
  · rintro rfl
    refine ⟨fun h1 h2 h3 => ?_, fun h1 => ?_, fun h1 h2 => ?_, fun h1 h2 h3 => ?_⟩ <;>
      simp [checkTradeSafety, getAmountInSol, getTokenLiquidity,
        calculatePriceImpact, noFaults, h1, *]

/-- C5 witness: at the default thresholds and a raw amount of 10 to the 8
(0.1 SOL) all three checks pass and the result is safe with no reason;
the iff between reason presence and unsafety also holds there. -/
theorem checkTradeSafety_reason_iff_rejected_witness :
    checkTradeSafety initialTPState (10 ^ 8) noFaults = ⟨true, none⟩ ∧
    ((checkTradeSafety initialTPState (10 ^ 8) noFaults).reason.isSome ↔
      (checkTradeSafety initialTPState (10 ^ 8) noFaults).safe = false) :=
  ⟨((checkTradeSafety_reason_iff_rejected initialTPState (10 ^ 8) noFaults).2
      rfl).1 (by norm_num [initialTPState]) (by norm_num [initialTPState])
      (by norm_num [initialTPState]),
    (checkTradeSafety_reason_iff_rejected initialTPState (10 ^ 8) noFaults).1⟩

/-- C6 counterexample: with the default thresholds and an exception
injected into the liquidity lookup, checkTradeSafety returns the liquidity
rejection built from the fail-closed value 0, not the generic
"Failed to check trade safety" rejection the claim requires. -/
theorem checkTradeSafety_liq_fault_counterexample :
    checkTradeSafety initialTPState (10 ^ 8) ⟨false, true, false⟩ =
      ⟨false, some "Insufficient liquidity: 0 SOL < 100 SOL"⟩ ∧
    checkTradeSafety initialTPState (10 ^ 8) ⟨false, true, false⟩ ≠
      ⟨false, some "Failed to check trade safety"⟩ := by
  have h : checkTradeSafety initialTPState (10 ^ 8) ⟨false, true, false⟩ =
      ⟨false, some (liquidityReason 0 100)⟩ := by
    norm_num [checkTradeSafety, getAmountInSol, getTokenLiquidity,
      calculatePriceImpact, initialTPState]
  have hs : liquidityReason 0 100 = "Insufficient liquidity: 0 SOL < 100 SOL" := rfl
  rw [h, hs]
  exact ⟨rfl, by decide⟩

/-- C6 (amended): no exception escapes checkTradeSafety. A fault in the
amount conversion reaches the outer handler and yields the generic
rejection; faults in the liquidity and price-impact helpers are caught by
those helpers, which substitute the fail-closed values 0 and 100, so the
corresponding check rejects with its own reason whenever the configured
threshold makes that value a violation. -/
theorem checkTradeSafety_exception_handling (st : TPState) (raw : ℤ) (f : Faults) :
    (f.conv = true →
      checkTradeSafety st raw f = ⟨false, some "Failed to check trade safety"⟩) ∧
    (f.conv = false → f.liq = true →
      ¬ st.maxTradeSize < (raw : ℚ) / 10 ^ 9 → 0 < st.minLiquidity →
      checkTradeSafety st raw f =
        ⟨false, some (liquidityReason 0 st.minLiquidity)⟩) ∧
    (f.conv = false → f.impact = true →
      ¬ st.maxTradeSize < (raw : ℚ) / 10 ^ 9 →
      ¬ getTokenLiquidity st f.liq < st.minLiquidity →
      st.maxSlippage < 100 →
      checkTradeSafety st raw f =
        ⟨false, some (impactReason 100 st.maxSlippage)⟩) := by
  refine ⟨fun h => ?_, fun h1 h2 h3 h4 => ?_, fun h1 h2 h3 h4 h5 => ?_⟩
  · simp [checkTradeSafety, getAmountInSol, h]
  · simp [checkTradeSafety, getAmountInSol, getTokenLiquidity, h1, h2, h3, h4]
  · simp [checkTradeSafety, getAmountInSol, calculatePriceImpact,
      h1, h2, h3, h4, h5]

/-- C6 amended witness: the three fault cases at the default thresholds
and a raw amount of 10 to the 8. -/
theorem checkTradeSafety_exception_handling_witness :
    checkTradeSafety initialTPState (10 ^ 8) ⟨true, false, false⟩ =
      ⟨false, some "Failed to check trade safety"⟩ ∧
    checkTradeSafety initialTPState (10 ^ 8) ⟨false, true, false⟩ =
      ⟨false, some (liquidityReason 0 100)⟩ ∧
    checkTradeSafety initialTPState (10 ^ 8) ⟨false, false, true⟩ =
      ⟨false, some (impactReason 100 1)⟩ :=
  ⟨(checkTradeSafety_exception_handling initialTPState (10 ^ 8)
      ⟨true, false, false⟩).1 rfl,
    (checkTradeSafety_exception_handling initialTPState (10 ^ 8)
      ⟨false, true, false⟩).2.1 rfl rfl (by norm_num [initialTPState])
      (by norm_num [initialTPState]),
    (checkTradeSafety_exception_handling initialTPState (10 ^ 8)
      ⟨false, false, true⟩).2.2 rfl rfl (by norm_num [initialTPState])
      (by norm_num [getTokenLiquidity, initialTPState])
      (by norm_num [initialTPState])⟩

/-- C9 counterexample: setMaxSlippage stores its argument without
validation, so setting the slippage to a negative value leaves the three
thresholds not all strictly positive. -/
theorem setters_no_validation_counterexample :
    ¬ thresholdsPositive (setMaxSlippage initialTPState (-1)) := by
  norm_num [thresholdsPositive, setMaxSlippage, initialTPState]

/-- C9 (amended): the setters store their argument unvalidated; the
positivity invariant is preserved, not enforced: if the current state
satisfies it and the value passed is strictly positive, it still holds
after each of setMaxSlippage, setMaxTradeSize and setMinLiquidity. -/
theorem setters_preserve_positivity (st : TPState) (x : ℚ)
    (hst : thresholdsPositive st) (hx : 0 < x) :
    thresholdsPositive (setMaxSlippage st x) ∧
    thresholdsPositive (setMaxTradeSize st x) ∧
    thresholdsPositive (setMinLiquidity st x) := by
  obtain ⟨h1, h2, h3⟩ := hst
  exact ⟨⟨hx, h2, h3⟩, ⟨h1, hx, h3⟩, ⟨h1, h2, hx⟩⟩

/-- C9 amended witness: preservation at the initial state with the
value 5. -/
theorem setters_preserve_positivity_witness :
    thresholdsPositive (setMaxSlippage initialTPState 5) ∧
    thresholdsPositive (setMaxTradeSize initialTPState 5) ∧
    thresholdsPositive (setMinLiquidity initialTPState 5) :=
  setters_preserve_positivity initialTPState 5 (by decide) (by decide)

/-- C2: the hold band. On a tracked position with resolved pool keys,
nonzero amount and a recorded acquisition value, a net change strictly
between the stop-loss and take-profit bounds makes sell return false on
its first iteration, with no transaction built or submitted. -/
theorem sell_hold_band (cfg : SellConfig)
    (accounts : String → Option MinimalTokenAccountData) (call : SellCall)
    (env : Nat → TxOutcome) (fuel : Nat) (ta : MinimalTokenAccountData) (bv : ℚ)
    (hta : accounts call.mint = some ta) (hpk : ta.poolKeys.isSome)
    (hamt : call.amount ≠ 0) (hbv : ta.buyValue = some bv)
    (hlo : cfg.stopLoss < (call.value - bv) / bv)
    (hhi : (call.value - bv) / bv < cfg.takeProfit)
    (hfuel : 1 ≤ fuel) :
    sell cfg accounts call env fuel = (some false, 0) := by
  obtain ⟨f, rfl⟩ : ∃ f, fuel = f + 1 := ⟨fuel - 1, by omega⟩
  obtain ⟨pk, hpk2⟩ := Option.isSome_iff_exists.mp hpk
  simp [sell, sellLoop, sellIter, hta, hpk2, hamt, hbv, hlo, hhi]

/-- C2 witness: stop loss -10 percent, take profit +50 percent, buy value
100 and current value 105, so the net change is +5 percent; sell keeps
holding. -/
theorem sell_hold_band_witness :
    sell ⟨-1/10, 1/2, 5⟩
      (fun s => if s = "mintA"
        then some ⟨"mintA", "ataA", some 100, some ⟨"pool", 4⟩, none⟩ else none)
      ⟨"mintA", 10, 105⟩ (fun _ => .confirmed) 1 = (some false, 0) :=
  sell_hold_band _ _ _ _ _ ⟨"mintA", "ataA", some 100, some ⟨"pool", 4⟩, none⟩ 100
    rfl rfl (by decide) rfl
    (by show (-1/10 : ℚ) < ((105 : ℚ) - 100) / 100; norm_num)
    (by show ((105 : ℚ) - 100) / 100 < 1/2; norm_num) (by norm_num)

/-- When every iteration of the sell loop ends in the catch block, the
loop returns true as soon as the retry counter reaches the maximum; fuel
covering the remaining retries suffices. -/
lemma sellLoop_allCaught (cfg : SellConfig)
    (accounts : String → Option MinimalTokenAccountData) (call : SellCall)
    (env : Nat → TxOutcome)
    (hiter : ∀ j, sellIter cfg accounts call (env j) = (.caught, true)) :
    ∀ fuel retries i, cfg.maxSellRetries.toNat ≤ retries + fuel → 1 ≤ fuel →
    (sellLoop cfg accounts call env fuel retries i).1 = some true := by
  intro fuel
  induction fuel with
  | zero => intro retries i hle h1; omega
  | succ f ih =>
    intro retries i hle h1
    simp only [sellLoop, hiter i]
    by_cases hc : ((retries + 1 : Nat) : ℤ) < cfg.maxSellRetries
    · rw [if_pos hc]
      exact ih (retries + 1) (i + 1) (by omega) (by omega)
    · rw [if_neg hc]

/-- C3: retry exhaustion on the sell path is fail-open. If the guards all
pass, the band check does not hold, and every transaction attempt throws,
sell still returns true once the retry counter reaches maxSellRetries. -/
theorem sell_retry_exhaustion_fail_open (cfg : SellConfig)
    (accounts : String → Option MinimalTokenAccountData) (call : SellCall)
    (env : Nat → TxOutcome) (fuel : Nat) (ta : MinimalTokenAccountData) (bv : ℚ)
    (hta : accounts call.mint = some ta) (hpk : ta.poolKeys.isSome)
    (hamt : call.amount ≠ 0) (hbv : ta.buyValue = some bv)
    (hband : ¬ (cfg.stopLoss < (call.value - bv) / bv ∧
      (call.value - bv) / bv < cfg.takeProfit))
    (henv : ∀ i, env i = .threw)
    (hfuel : cfg.maxSellRetries.toNat + 1 ≤ fuel) :
    (sell cfg accounts call env fuel).1 = some true := by
  obtain ⟨pk, hpk2⟩ := Option.isSome_iff_exists.mp hpk
  have hiter : ∀ j, sellIter cfg accounts call (env j) = (.caught, true) := by
    intro j
    rw [henv j]
    simp [sellIter, hta, hpk2, hamt, hbv, hband]
  exact sellLoop_allCaught cfg accounts call env hiter fuel 0 0 (by omega) (by omega)

/-- C3 witness: maxSellRetries 3, a position bought at 100 now worth 300
(outside the band), every attempt throwing, fuel 4: sell returns true. -/
theorem sell_retry_exhaustion_fail_open_witness :
    (sell ⟨-1/10, 1/2, 3⟩
      (fun s => if s = "mintA"
        then some ⟨"mintA", "ataA", some 100, some ⟨"pool", 4⟩, none⟩ else none)
      ⟨"mintA", 10, 300⟩ (fun _ => .threw) 4).1 = some true :=
  sell_retry_exhaustion_fail_open _ _ _ _ _
    ⟨"mintA", "ataA", some 100, some ⟨"pool", 4⟩, none⟩ 100 rfl rfl (by decide)
    rfl (by show ¬ ((-1/10 : ℚ) < ((300 : ℚ) - 100) / 100 ∧
      ((300 : ℚ) - 100) / 100 < 1/2); norm_num) (fun _ => rfl) (by decide)

/-- C4 counterexample: a tracked position with no pool keys does not make
sell return true: the continue path never touches the retry counter, so
with maxSellRetries 5 the loop makes no progress; 30 iterations of fuel
are exhausted without returning and without any submission. -/
theorem sell_missing_poolkeys_counterexample :
    sell ⟨0, 1, 5⟩
      (fun s => if s = "mintB"
        then some ⟨"mintB", "ataB", some 100, none, none⟩ else none)
      ⟨"mintB", 10, 105⟩ (fun _ => .confirmed) 30 = (none, 0) ∧
    (sell ⟨0, 1, 5⟩
      (fun s => if s = "mintB"
        then some ⟨"mintB", "ataB", some 100, none, none⟩ else none)
      ⟨"mintB", 10, 105⟩ (fun _ => .confirmed) 30).1 ≠ some true := by
  constructor <;> decide

/-- With a tracked record lacking pool keys and a positive retry maximum,
the sell loop never returns for any amount of fuel. -/
lemma sellLoop_stuck_no_poolkeys (cfg : SellConfig)
    (accounts : String → Option MinimalTokenAccountData) (call : SellCall)
    (env : Nat → TxOutcome) (ta : MinimalTokenAccountData)
    (hta : accounts call.mint = some ta) (hpk : ta.poolKeys = none)
    (hmax : 1 ≤ cfg.maxSellRetries) :
    ∀ fuel i, (sellLoop cfg accounts call env fuel 0 i).1 = none := by
  intro fuel
  induction fuel with
  | zero => intro i; rfl
  | succ f ih =>
    intro i
    have hiter : sellIter cfg accounts call (env i) = (.passThrough, false) := by
      simp [sellIter, hta, hpk]
    simp only [sellLoop, hiter]
    rw [if_pos (by omega)]
    exact ih (i + 1)

/-- C4 (amended): a missing token account, and a zero balance on a record
with resolved pool keys, short-circuit sell to true with no submission;
but a tracked record without pool keys does not: its continue path leaves
the retry counter untouched, so whenever maxSellRetries is at least 1 the
loop never returns. -/
theorem sell_zero_balance_and_missing_poolkeys (cfg : SellConfig)
    (accounts : String → Option MinimalTokenAccountData) (call : SellCall)
    (env : Nat → TxOutcome) (fuel : Nat) :
    (accounts call.mint = none → 1 ≤ fuel →
      sell cfg accounts call env fuel = (some true, 0)) ∧
    (∀ ta, accounts call.mint = some ta → ta.poolKeys.isSome →
      call.amount = 0 → 1 ≤ fuel →
      sell cfg accounts call env fuel = (some true, 0)) ∧
    (∀ ta, accounts call.mint = some ta → ta.poolKeys = none →
      1 ≤ cfg.maxSellRetries →
      (sell cfg accounts call env fuel).1 = none) := by
  refine ⟨fun hta hfuel => ?_, fun ta hta hpk hamt hfuel => ?_,
    fun ta hta hpk hmax => ?_⟩
  · obtain ⟨f, rfl⟩ : ∃ f, fuel = f + 1 := ⟨fuel - 1, by omega⟩
    simp [sell, sellLoop, sellIter, hta]
  · obtain ⟨f, rfl⟩ : ∃ f, fuel = f + 1 := ⟨fuel - 1, by omega⟩
    obtain ⟨pk, hpk2⟩ := Option.isSome_iff_exists.mp hpk
    simp [sell, sellLoop, sellIter, hta, hpk2, hamt]
  · exact sellLoop_stuck_no_poolkeys cfg accounts call env ta hta hpk hmax fuel 0

/-- C4 amended witness: the three cases at concrete inputs. -/
theorem sell_zero_balance_and_missing_poolkeys_witness :
    sell ⟨0, 1, 5⟩ (fun _ => none) ⟨"mintC", 10, 105⟩ (fun _ => .confirmed) 1 =
      (some true, 0) ∧
    sell ⟨0, 1, 5⟩
      (fun s => if s = "mintA"
        then some ⟨"mintA", "ataA", some 100, some ⟨"pool", 4⟩, none⟩ else none)
      ⟨"mintA", 0, 105⟩ (fun _ => .confirmed) 1 = (some true, 0) ∧
    (sell ⟨0, 1, 5⟩
      (fun s => if s = "mintB"
        then some ⟨"mintB", "ataB", some 100, none, none⟩ else none)
      ⟨"mintB", 10, 105⟩ (fun _ => .confirmed) 7).1 = none :=
  ⟨(sell_zero_balance_and_missing_poolkeys _ _ _ _ _).1 rfl (by decide),
    (sell_zero_balance_and_missing_poolkeys _ _ _ _ _).2.1
      ⟨"mintA", "ataA", some 100, some ⟨"pool", 4⟩, none⟩ rfl rfl rfl (by decide),
    (sell_zero_balance_and_missing_poolkeys _ _ _ _ _).2.2
      ⟨"mintB", "ataB", some 100, none, none⟩ rfl rfl (by decide)⟩

/-- C10: a tracked position with resolved pool keys, nonzero amount and an
undefined buyValue makes sell return true immediately with no submission;
and no code path assigns buyValue: the only mutation the buy path performs
on a record keeps buyValue unchanged, and a freshly saved record has no
buyValue, so every position reaching this check is reported settled
without a sale ever being attempted. -/
theorem sell_undefined_buyValue_short_circuit :
    (∀ (cfg : SellConfig) (accounts : String → Option MinimalTokenAccountData)
      (call : SellCall) (env : Nat → TxOutcome) (fuel : Nat)
      (ta : MinimalTokenAccountData),
      accounts call.mint = some ta → ta.poolKeys.isSome → call.amount ≠ 0 →
      ta.buyValue = none → 1 ≤ fuel →
      sell cfg accounts call env fuel = (some true, 0)) ∧
    (∀ (ta : MinimalTokenAccountData) (pk : LiquidityPoolKeys),
      (buySetPoolKeys ta pk).buyValue = ta.buyValue) ∧
    (∀ (mint address : String) (m : MinimalMarketLayoutV3),
      (saveTokenAccount mint address m).buyValue = none) := by
  refine ⟨?_, fun ta pk => rfl, fun mint address m => rfl⟩
  intro cfg accounts call env fuel ta hta hpk hamt hbv hfuel
  obtain ⟨f, rfl⟩ : ∃ f, fuel = f + 1 := ⟨fuel - 1, by omega⟩
  obtain ⟨pk, hpk2⟩ := Option.isSome_iff_exists.mp hpk
  simp [sell, sellLoop, sellIter, hta, hpk2, hamt, hbv]

/-- C10 witness: the short circuit at a concrete position with no recorded
acquisition value, the buy mutation at a concrete record, and a concrete
freshly saved record. -/
theorem sell_undefined_buyValue_short_circuit_witness :
    sell ⟨0, 1, 5⟩
      (fun s => if s = "mintD"
        then some ⟨"mintD", "ataD", none, some ⟨"pool", 4⟩, none⟩ else none)
      ⟨"mintD", 10, 105⟩ (fun _ => .confirmed) 1 = (some true, 0) ∧
    (buySetPoolKeys ⟨"mintD", "ataD", none, none, none⟩ ⟨"pool", 4⟩).buyValue =
      (⟨"mintD", "ataD", none, none, none⟩ : MinimalTokenAccountData).buyValue ∧
    (saveTokenAccount "mintE" "ataE" ⟨"b", "a", "q"⟩).buyValue = none :=
  ⟨(sell_undefined_buyValue_short_circuit).1 _ _ _ _ _
      ⟨"mintD", "ataD", none, some ⟨"pool", 4⟩, none⟩ rfl rfl (by decide) rfl
      (by decide),
    (sell_undefined_buyValue_short_circuit).2.1 _ _,
    (sell_undefined_buyValue_short_circuit).2.2 "mintE" "ataE" ⟨"b", "a", "q"⟩⟩

/-- The dedup set only grows across a stream of notifications. -/
lemma runFeed_mem_set (g : Notif → Bool) (k : String) :
    ∀ (es : List Notif) (seen : List String), k ∈ seen → k ∈ (runFeed g seen es).1 := by
  intro es
  induction es with
  | nil => intro seen h; exact h
  | cons e es ih =>
    intro seen h
    simp only [runFeed, dedupStep]
    by_cases hc : g e ∧ e.key ∉ seen
    · rw [if_pos hc]; exact ih (e.key :: seen) (List.mem_cons_of_mem _ h)
    · rw [if_neg hc]; exact ih seen h

/-- An identity already in the dedup set is never dispatched. -/
lemma runFeed_not_dispatched (g : Notif → Bool) (k : String) :
    ∀ (es : List Notif) (seen : List String), k ∈ seen → k ∉ (runFeed g seen es).2 := by
  intro es
  induction es with
  | nil => intro seen _ h; simp [runFeed] at h
  | cons e es ih =>
    intro seen h
    simp only [runFeed, dedupStep]
    by_cases hc : g e ∧ e.key ∉ seen
    · rw [if_pos hc]
      intro hmem
      rcases List.mem_cons.mp hmem with rfl | hmem
      · exact hc.2 h
      · exact ih (e.key :: seen) (List.mem_cons_of_mem _ h) hmem
    · rw [if_neg hc]; exact ih seen h

/-- Every identity is dispatched at most once over any stream. -/
lemma runFeed_count_le_one (g : Notif → Bool) (k : String) :
    ∀ (es : List Notif) (seen : List String),
    List.count k (runFeed g seen es).2 ≤ 1 := by
  intro es
  induction es with
  | nil => intro seen; simp [runFeed]
  | cons e es ih =>
    intro seen
    simp only [runFeed, dedupStep]
    by_cases hc : g e ∧ e.key ∉ seen
    · rw [if_pos hc]
      rcases eq_or_ne k e.key with rfl | hk
      · have h0 : List.count e.key (runFeed g (e.key :: seen) es).2 = 0 :=
          List.count_eq_zero.mpr
            (runFeed_not_dispatched g e.key es (e.key :: seen)
              (List.mem_cons_self _ _))
        simp [List.count_cons, h0]
      · have h1 := ih (e.key :: seen)
        simp [List.count_cons, hk, Ne.symm hk]
        omega
    · rw [if_neg hc]; exact ih seen

/-- C7: discovery deduplication. For both the pool stream and the market
stream, the dedup set only grows, an identity already recorded is never
dispatched, and any identity is dispatched at most once over the whole
stream. -/
theorem discovery_dedup (rt : ℤ) (seen : List String) (es : List Notif)
    (k : String) :
    (k ∈ seen → k ∈ (processPoolStream rt seen es).1) ∧
    (k ∈ seen → k ∉ (processPoolStream rt seen es).2) ∧
    List.count k (processPoolStream rt seen es).2 ≤ 1 ∧
    (k ∈ seen → k ∈ (processMarketStream seen es).1) ∧
    (k ∈ seen → k ∉ (processMarketStream seen es).2) ∧
    List.count k (processMarketStream seen es).2 ≤ 1 :=
  ⟨runFeed_mem_set _ k es seen, runFeed_not_dispatched _ k es seen,
    runFeed_count_le_one _ k es seen, runFeed_mem_set _ k es seen,
    runFeed_not_dispatched _ k es seen, runFeed_count_le_one _ k es seen⟩

/-- C7 witness: a stream where identity b arrives twice and the already
seen identity a arrives again; a stays in the set and is not dispatched,
and each identity is dispatched at most once, on both streams. -/
theorem discovery_dedup_witness :
    ("a" ∈ (processPoolStream 0 ["a"] [⟨"b", 5⟩, ⟨"b", 5⟩, ⟨"a", 5⟩]).1) ∧
    ("a" ∉ (processPoolStream 0 ["a"] [⟨"b", 5⟩, ⟨"b", 5⟩, ⟨"a", 5⟩]).2) ∧
    List.count "a" (processPoolStream 0 ["a"] [⟨"b", 5⟩, ⟨"b", 5⟩, ⟨"a", 5⟩]).2 ≤ 1 ∧
    ("a" ∈ (processMarketStream ["a"] [⟨"b", 5⟩, ⟨"b", 5⟩, ⟨"a", 5⟩]).1) ∧
    ("a" ∉ (processMarketStream ["a"] [⟨"b", 5⟩, ⟨"b", 5⟩, ⟨"a", 5⟩]).2) ∧
    List.count "a" (processMarketStream ["a"] [⟨"b", 5⟩, ⟨"b", 5⟩, ⟨"a", 5⟩]).2 ≤ 1 :=
  ⟨(discovery_dedup 0 ["a"] _ "a").1 (by decide),
    (discovery_dedup 0 ["a"] _ "a").2.1 (by decide),
    (discovery_dedup 0 ["a"] _ "a").2.2.1,
    (discovery_dedup 0 ["a"] _ "a").2.2.2.1 (by decide),
    (discovery_dedup 0 ["a"] _ "a").2.2.2.2.1 (by decide),
    (discovery_dedup 0 ["a"] _ "a").2.2.2.2.2⟩

/-- The retry combinator with n recursions left makes at most n + 1
attempts. -/
lemma retryGo_attempts_le (op : Nat → Except Unit String) :
    ∀ n i, (retryGo op n i).2 ≤ n + 1 := by
  intro n
  induction n with
  | zero => intro i; simp [retryGo]
  | succ m ih =>
    intro i
    simp only [retryGo]
    cases op i with
    | ok a => simp
    | error e =>
      have := ih (i + 1)
      simp only []
      omega

/-- C8 counterexample: with the first three submission attempts throwing
and the fourth succeeding, the buy path makes four submission attempts in
total, exceeding the claimed bound of three attempts; the fourth attempt
is the one that succeeds. -/
theorem buy_four_attempts_counterexample :
    buy ⟨true, fun i => if i < 3 then .error () else .ok "sig",
      fun _ => false⟩ = (.ok (), 4) ∧
    ¬ (buy ⟨true, fun i => if i < 3 then .error () else .ok "sig",
      fun _ => false⟩).2 ≤ 3 := by
  have h : buy ⟨true, fun i => if i < 3 then .error () else .ok "sig",
      fun _ => false⟩ = (.ok (), 4) := rfl
  exact ⟨h, by rw [h]; decide⟩

/-- C8 (amended): only the submission step is retried, with a bound of
four attempts in total (the initial attempt plus a retries parameter of
3, with a fixed 1000 ms interval between attempts), and no submission
happens when the safety gate rejects; confirmation runs once after a
successful submission, is never retried, and a confirmation error is
surfaced to the caller as a failure with no further submissions. -/
theorem buy_submission_retry_bound (env : BuyEnv) :
    (buy env).2 ≤ 4 ∧
    (env.safetyOk = false → buy env = (.ok (), 0)) ∧
    (∀ sig k, env.safetyOk = true → retryRun env.send 3 = (.ok sig, k) →
      env.confirmErr sig = true → buy env = (.error (), k)) := by
  have hb : (retryRun env.send 3).2 ≤ 4 := by
    have h := retryGo_attempts_le env.send (3 : ℤ).toNat 0
    simpa [retryRun] using h
  refine ⟨?_, fun h => by simp [buy, h], fun sig k hs hr hc => ?_⟩
  · unfold buy
    by_cases h : env.safetyOk = false
    · simp [h]
    · rw [if_neg h]
      rcases hrr : retryRun env.send 3 with ⟨r, j⟩
      have hj : j ≤ 4 := by rw [hrr] at hb; exact hb
      cases r with
      | error e => simpa using hj
      | ok sig =>
        by_cases hcf : env.confirmErr sig
        · simp only [hcf, if_pos]; simpa using hj
        · simp only [hcf]; simpa using hj
  · unfold buy
    rw [if_neg (by simp [hs]), hr]
    simp [hc]

/-- C8 amended witness: an accepted trade whose single submission succeeds
but whose confirmation reports an error yields a surfaced failure after
exactly one attempt, and a rejected trade submits nothing; the attempt
bound holds at both inputs. -/
theorem buy_submission_retry_bound_witness :
    buy ⟨true, fun _ => .ok "s", fun _ => true⟩ = (.error (), 1) ∧
    (buy ⟨true, fun _ => .ok "s", fun _ => true⟩).2 ≤ 4 ∧
    buy ⟨false, fun _ => .error (), fun _ => false⟩ = (.ok (), 0) :=
  ⟨(buy_submission_retry_bound ⟨true, fun _ => .ok "s", fun _ => true⟩).2.2
      "s" 1 rfl rfl rfl,
    (buy_submission_retry_bound ⟨true, fun _ => .ok "s", fun _ => true⟩).1,
    (buy_submission_retry_bound ⟨false, fun _ => .error (), fun _ => false⟩).2.1
      rfl⟩

end PumpBot
